import Mathlib

/-!
Verification of the users CRUD pipeline of the `nestjs-basics` repository.

The repository ships `src/users/users.controller.ts`; the `UsersService`,
the DTO validators and the throttler configuration are described by the
specification (and `src/documentation/DOCS.md`) but their source files are
absent, so those parts are modelled from the spec, each marked in its doc
comment.

Modelling conventions:
* TypeScript string-literal union types (such as the role union) are erased
  at runtime, so roles travel as plain strings; `validRole` captures the
  three-value enum.
* JavaScript numbers reached by `+id` are modelled exactly: integer-valued
  results as `JSNum.num`, finite or infinite non-integer values as
  `JSNum.nonIntNum`, and NaN as `JSNum.nan`.  The program compares such a
  number only with stored integer ids (`user.id === id`), and both a
  non-integer value and NaN compare unequal to every integer, which `idEq`
  reflects.  Double-precision rounding of astronomically large numerals is
  not modelled (ids in this program stay far below 2^53), and `jsTrim`
  trims the ASCII whitespace JavaScript trims (not the full Unicode space
  set).
-/

set_option autoImplicit false

namespace NestBasics

/-- A user record of the in-memory store:
`{ id, name, email, role }` (spec §3, controller payload shape). -/
structure User where
  id : Int
  name : String
  email : String
  role : String
  deriving DecidableEq, Repr

/-- The three-value role enum `INTERN | ENGINEER | ADMIN`
(controller type annotation, spec §3). -/
def validRole (r : String) : Bool :=
  r == "INTERN" || r == "ENGINEER" || r == "ADMIN"

/-- Result of JavaScript string-to-number conversion, restricted to what the
program observes: an integer value, a non-integer (or infinite) value, or
NaN. -/
inductive JSNum where
  | num (n : Int)
  | nonIntNum
  | nan
  deriving DecidableEq, Repr

/-- The comparison `user.id === id` performed by the service: an integer id
equals the converted number exactly when the latter is that integer
(NaN and non-integer values compare unequal to every integer). -/
def idEq (uid : Int) (x : JSNum) : Bool :=
  match x with
  | .num n => uid == n
  | .nonIntNum => false
  | .nan => false

/-- Value of a decimal digit character. -/
def decDigit (c : Char) : Option Nat :=
  if c.isDigit then some (c.toNat - 48) else none

/-- Value of a hexadecimal digit character. -/
def hexDigit (c : Char) : Option Nat :=
  if c.isDigit then some (c.toNat - 48)
  else if 'a' ≤ c && c ≤ 'f' then some (c.toNat - 87)
  else if 'A' ≤ c && c ≤ 'F' then some (c.toNat - 55)
  else none

/-- Value of an octal digit character. -/
def octDigit (c : Char) : Option Nat :=
  if '0' ≤ c && c ≤ '7' then some (c.toNat - 48) else none

/-- Value of a binary digit character. -/
def binDigit (c : Char) : Option Nat :=
  if c == '0' then some 0 else if c == '1' then some 1 else none

/-- Read a non-empty run of digits in the given radix; `none` on an empty
run or a character that is not a digit of the radix. -/
def readDigits (digit : Char → Option Nat) (radix : Nat) (cs : List Char) :
    Option Nat :=
  if cs.isEmpty then none
  else
    cs.foldl
      (fun acc c =>
        match acc, digit c with
        | some a, some d => some (a * radix + d)
        | _, _ => none)
      (some 0)

/-- The natural number denoted by a run of decimal digit characters. -/
def natOfDigits (cs : List Char) : Nat :=
  cs.foldl (fun a c => a * 10 + (c.toNat - 48)) 0

/-- Classify a decimal mantissa `m` scaled by `10 ^ e10`: an integer value
when the scale keeps or exactly cancels the fraction, otherwise a
non-integer number. -/
def mkJSNum (m : Int) (e10 : Int) : JSNum :=
  if 0 ≤ e10 then .num (m * (10 : Int) ^ e10.toNat)
  else
    let d : Int := (10 : Int) ^ (-e10).toNat
    if m % d == 0 then .num (m / d) else .nonIntNum

/-- Optional exponent suffix `e`/`E` with optional sign and mandatory
digits; `some 0` when absent; `none` when malformed. -/
def readExp (cs : List Char) : Option Int :=
  match cs with
  | [] => some 0
  | 'e' :: t =>
    (match t with
     | '+' :: u => (readDigits decDigit 10 u).map (fun n => (n : Int))
     | '-' :: u => (readDigits decDigit 10 u).map (fun n => -(n : Int))
     | u => (readDigits decDigit 10 u).map (fun n => (n : Int)))
  | 'E' :: t =>
    (match t with
     | '+' :: u => (readDigits decDigit 10 u).map (fun n => (n : Int))
     | '-' :: u => (readDigits decDigit 10 u).map (fun n => -(n : Int))
     | u => (readDigits decDigit 10 u).map (fun n => (n : Int)))
  | _ => none

/-- Decimal numeric literal after the optional sign: digits, optional
fraction, optional exponent (JavaScript `StrDecimalLiteral`). -/
def readDec (neg : Bool) (cs : List Char) : JSNum :=
  let ip := cs.takeWhile Char.isDigit
  let r1 := cs.dropWhile Char.isDigit
  let fp :=
    match r1 with
    | '.' :: t => t.takeWhile Char.isDigit
    | _ => []
  let r2 :=
    match r1 with
    | '.' :: t => t.dropWhile Char.isDigit
    | _ => r1
  if ip.isEmpty && fp.isEmpty then .nan
  else
    match readExp r2 with
    | none => .nan
    | some e =>
      let mant : Int := (natOfDigits (ip ++ fp) : Int)
      mkJSNum (if neg then -mant else mant) (e - (fp.length : Int))

/-- Strip leading and trailing whitespace, as `Number(string)` does before
parsing. -/
def jsTrim (cs : List Char) : List Char :=
  ((cs.dropWhile Char.isWhitespace).reverse.dropWhile Char.isWhitespace).reverse

/-- JavaScript unary plus on a string (`Number(string)`): trimmed; empty
means `0`; radix-prefixed integer literals; else an optionally signed
decimal literal or `Infinity`; anything else is NaN. -/
def toNumber (s : String) : JSNum :=
  let cs := jsTrim s.toList
  if cs.isEmpty then .num 0
  else
    match cs with
    | '0' :: 'x' :: rest =>
      (match readDigits hexDigit 16 rest with
       | some n => .num (n : Int)
       | none => .nan)
    | '0' :: 'X' :: rest =>
      (match readDigits hexDigit 16 rest with
       | some n => .num (n : Int)
       | none => .nan)
    | '0' :: 'o' :: rest =>
      (match readDigits octDigit 8 rest with
       | some n => .num (n : Int)
       | none => .nan)
    | '0' :: 'O' :: rest =>
      (match readDigits octDigit 8 rest with
       | some n => .num (n : Int)
       | none => .nan)
    | '0' :: 'b' :: rest =>
      (match readDigits binDigit 2 rest with
       | some n => .num (n : Int)
       | none => .nan)
    | '0' :: 'B' :: rest =>
      (match readDigits binDigit 2 rest with
       | some n => .num (n : Int)
       | none => .nan)
    | '+' :: t =>
      if t = ['I', 'n', 'f', 'i', 'n', 'i', 't', 'y'] then .nonIntNum
      else readDec false t
    | '-' :: t =>
      if t = ['I', 'n', 'f', 'i', 'n', 'i', 't', 'y'] then .nonIntNum
      else readDec true t
    | t =>
      if t = ['I', 'n', 'f', 'i', 'n', 'i', 't', 'y'] then .nonIntNum
      else readDec false t

/-- The error conditions the users pipeline signals (spec §7 taxonomy,
restricted to the conditions these routes produce). -/
inductive HttpError where
  | notFound (msg : String)
  | badRequest (msgs : List String)
  deriving DecidableEq, Repr

/-- A validated creation payload `{name, email, role}`
(controller `create` body type). -/
structure CreateUserDto where
  name : String
  email : String
  role : String
  deriving DecidableEq, Repr

/-- A partial update payload `{name?, email?, role?}`
(controller `update` body type). -/
structure UpdateUserDto where
  name : Option String
  email : Option String
  role : Option String
  deriving DecidableEq, Repr

/-- A raw creation request body before validation: each field may be
absent. -/
structure RawCreateBody where
  name : Option String
  email : Option String
  role : Option String
  deriving DecidableEq, Repr

/-- Modelled from the spec: the email well-formedness check of the request
validators (`email format`, §4.3); the validator source is not in the
repository.  An address is one `@` separating a non-empty local part from a
non-empty domain that contains a dot. -/
def isEmailFormat (e : String) : Bool :=
  let cs := e.toList
  let l := cs.takeWhile (fun c => c != '@')
  let d := (cs.dropWhile (fun c => c != '@')).drop 1
  cs.count '@' == 1 && !l.isEmpty && !d.isEmpty && d.contains '.'

/-- Modelled from the spec: the field-level messages the create validator
collects (required presence, email format, enum membership, §4.3); the DTO
source is not in the repository. -/
def createErrors (b : RawCreateBody) : List String :=
  (match b.name with
   | none => ["name should not be empty"]
   | some n => if n.isEmpty then ["name should not be empty"] else []) ++
  (match b.email with
   | none => ["email must be an email"]
   | some e => if isEmailFormat e then [] else ["email must be an email"]) ++
  (match b.role with
   | none => ["role must be one of the following values: INTERN, ENGINEER, ADMIN"]
   | some r =>
     if validRole r then []
     else ["role must be one of the following values: INTERN, ENGINEER, ADMIN"])

/-- Modelled from the spec: validation runs before create reaches storage
(§4.3); a violation yields the collected field-level messages, otherwise
the validated payload. -/
def validateCreate (b : RawCreateBody) : Except (List String) CreateUserDto :=
  let errs := createErrors b
  match b.name, b.email, b.role with
  | some n, some e, some r => if errs.isEmpty then .ok ⟨n, e, r⟩ else .error errs
  | _, _, _ => .error errs

/-- Modelled from the spec: `list-all: returns every record, optionally
filtered by exact role match; no pagination` (§4.1); the service source is
not in the repository. -/
def serviceFindAll (s : List User) (role : Option String) : List User :=
  match role with
  | none => s
  | some r => s.filter (fun u => u.role == r)

/-- Modelled from the spec: `get-by-id: returns the matching record or
signals NotFound` (§4.1); comparison is `user.id === id` on the converted
number. -/
def serviceFindOne (s : List User) (x : JSNum) : Except HttpError User :=
  match s.find? (fun u => idEq u.id x) with
  | some u => .ok u
  | none => .error (.notFound "User Not Found")

/-- The greatest id held so far (`0` for an empty store); create assigns
its successor. -/
def maxId (s : List User) : Int :=
  s.foldr (fun u m => max u.id m) 0

/-- Modelled from the spec: `create: assigns the next integer id, appends,
returns the new record` (§4.1). -/
def serviceCreate (s : List User) (d : CreateUserDto) : List User × User :=
  let u : User := ⟨maxId s + 1, d.name, d.email, d.role⟩
  (s ++ [u], u)

/-- Merge the supplied fields of a partial update into a record; absent
fields (and the id) are kept. -/
def applyUpdate (u : User) (p : UpdateUserDto) : User :=
  { u with
    name := p.name.getD u.name
    email := p.email.getD u.email
    role := p.role.getD u.role }

/-- Modelled from the spec: `update-by-id: merges supplied fields into the
existing record; signals NotFound if absent` (§4.1); returns the updated
record. -/
def serviceUpdate (s : List User) (x : JSNum) (p : UpdateUserDto) :
    Except HttpError (List User × User) :=
  match s.find? (fun u => idEq u.id x) with
  | none => .error (.notFound "User Not Found")
  | some u =>
    .ok (s.map (fun v => if idEq v.id x then applyUpdate v p else v),
         applyUpdate u p)

/-- Modelled from the spec: `delete-by-id: removes the record; signals
NotFound if absent` (§4.1), responding with the deleted record's id
(§6). -/
def serviceDelete (s : List User) (x : JSNum) :
    Except HttpError (List User × Int) :=
  match s.find? (fun u => idEq u.id x) with
  | none => .error (.notFound "User Not Found")
  | some u => .ok (s.filter (fun v => !idEq v.id x), u.id)

/-- Route `GET /users[?role=...]`: the controller forwards the raw query value to
the service unchanged (`findAll(@Query('role') role?)`), with no membership
check — the union type annotation is erased at runtime. -/
def controllerFindAll (s : List User) (role : Option String) : List User :=
  serviceFindAll s role

/-- Route `GET /users/:id`: the controller converts the path parameter with unary
plus and calls the service (`this.usersService.findOne(+id)`). -/
def controllerFindOne (s : List User) (idStr : String) : Except HttpError User :=
  serviceFindOne s (toNumber idStr)

/-- Route `POST /users`: validation, then the service create; a validation error
leaves the store untouched and answers BadRequest with the field
messages. -/
def controllerCreate (s : List User) (b : RawCreateBody) :
    List User × Except HttpError User :=
  match validateCreate b with
  | .error msgs => (s, .error (.badRequest msgs))
  | .ok d =>
    let r := serviceCreate s d
    (r.1, .ok r.2)

/-- Route `PATCH /users/:id`: unary-plus conversion, then the service update
(`this.usersService.update(+id, userUpdate)`); an error leaves the store
untouched. -/
def controllerUpdate (s : List User) (idStr : String) (p : UpdateUserDto) :
    List User × Except HttpError User :=
  match serviceUpdate s (toNumber idStr) p with
  | .error e => (s, .error e)
  | .ok r => (r.1, .ok r.2)

/-- Route `DELETE /users/:id`: unary-plus conversion, then the service delete
(`this.usersService.delete(+id)`); an error leaves the store untouched. -/
def controllerDelete (s : List User) (idStr : String) :
    List User × Except HttpError Int :=
  match serviceDelete s (toNumber idStr) with
  | .error e => (s, .error e)
  | .ok r => (r.1, .ok r.2)

/-- One fixed-window counter of the rate limiter: the instant the current
window opened and the number of requests accepted in it. -/
structure WindowState where
  windowStart : Nat
  count : Nat
  deriving DecidableEq, Repr

/-- Modelled from the spec: one fixed-window check (§4.4); the throttler
configuration source is not in the repository.  A request at time `t`
(milliseconds) inside the current window is admitted while the count is
below the limit; a request after the window expires opens a fresh window
counting it. -/
def stepWindow (ttl limit : Nat) (w : WindowState) (t : Nat) :
    WindowState × Bool :=
  if t < w.windowStart + ttl then
    if w.count < limit then ({ w with count := w.count + 1 }, true)
    else (w, false)
  else ({ windowStart := t, count := 1 }, true)

/-- Per-client limiter state: one counter per configured window. -/
structure ClientState where
  short : WindowState
  long : WindowState
  deriving DecidableEq, Repr

/-- Short window length: 1 second (DOCS throttler config `ttl: 1000`). -/
def shortTtl : Nat := 1000

/-- Short window limit: 3 requests (DOCS throttler config `limit: 3`). -/
def shortLimit : Nat := 3

/-- Long window length: 60 seconds (DOCS throttler config `ttl: 60000`). -/
def longTtl : Nat := 60000

/-- Long window limit: 100 requests (DOCS throttler config
`limit: 100`). -/
def longLimit : Nat := 100

/-- Modelled from the spec: a request is admitted only when both windows
admit it, and a rejected request answers TooManyRequests and leaves the
counters unchanged (§4.4). -/
def rlStep (c : ClientState) (t : Nat) : ClientState × Bool :=
  let rs := stepWindow shortTtl shortLimit c.short t
  let rl := stepWindow longTtl longLimit c.long t
  if rs.2 && rl.2 then (⟨rs.1, rl.1⟩, true) else (c, false)

/-- A concrete store used to instantiate the theorems. -/
def sampleUsers : List User :=
  [⟨1, "Alice", "alice@example.com", "INTERN"⟩,
   ⟨2, "Bob", "bob@example.com", "ENGINEER"⟩,
   ⟨3, "Carol", "carol@example.com", "ADMIN"⟩]

/-! ### Helper lemmas -/

theorem mem_le_maxId {s : List User} {u : User} (h : u ∈ s) : u.id ≤ maxId s := by
  induction s with
  | nil => cases h
  | cons v t ih =>
    rcases List.mem_cons.mp h with rfl | hm
    · exact le_max_left _ _
    · exact le_trans (ih hm) (le_max_right _ _)

theorem find?_idEq_nan (s : List User) :
    s.find? (fun u => idEq u.id JSNum.nan) = none := by
  rw [List.find?_eq_none]
  intro u _
  simp [idEq]

theorem idEq_num_iff (uid n : Int) : idEq uid (JSNum.num n) = true ↔ uid = n := by
  simp [idEq]

/-! ### Claim theorems -/

/-- C4: list-all with no role filter returns every stored record, and with
a role filter returns exactly the records whose role equals the filter
value (a sublist of the store: exact match, no pagination or
truncation). -/
theorem findAll_filters_by_exact_role (s : List User) :
    controllerFindAll s none = s ∧
    ∀ r : String,
      (∀ u : User, u ∈ controllerFindAll s (some r) ↔ u ∈ s ∧ u.role = r) ∧
      List.Sublist (controllerFindAll s (some r)) s := by
  refine ⟨rfl, fun r => ⟨fun u => ?_, ?_⟩⟩
  · simp [controllerFindAll, serviceFindAll]
  · exact List.filter_sublist s

/-- C5: create assigns the successor of the current maximum id — an id
strictly greater than (hence distinct from) every stored id — appends the
new record at the end of the sequence, and returns that record carrying
the payload's fields. -/
theorem create_assigns_next_id_and_appends (s : List User) (d : CreateUserDto) :
    (serviceCreate s d).2.id = maxId s + 1 ∧
    (∀ v ∈ s, v.id < (serviceCreate s d).2.id) ∧
    (∀ v ∈ s, v.id ≠ (serviceCreate s d).2.id) ∧
    (serviceCreate s d).1 = s ++ [(serviceCreate s d).2] ∧
    (serviceCreate s d).2.name = d.name ∧
    (serviceCreate s d).2.email = d.email ∧
    (serviceCreate s d).2.role = d.role := by
  have hlt : ∀ v ∈ s, v.id < (serviceCreate s d).2.id := by
    intro v hv
    have := mem_le_maxId hv
    simp only [serviceCreate]
    omega
  exact ⟨rfl, hlt, fun v hv => ne_of_lt (hlt v hv), rfl, rfl, rfl, rfl⟩

/-- C9: the controller converts the id path parameter with the JavaScript
unary plus; a string converting to NaN is forwarded to the service, where
`user.id === id` matches no record, so get-by-id, update-by-id and
delete-by-id all answer NotFound and leave the store unchanged. -/
theorem nan_id_yields_not_found (s : List User) (idStr : String)
    (p : UpdateUserDto) (h : toNumber idStr = JSNum.nan) :
    controllerFindOne s idStr = .error (.notFound "User Not Found") ∧
    controllerUpdate s idStr p = (s, .error (.notFound "User Not Found")) ∧
    controllerDelete s idStr = (s, .error (.notFound "User Not Found")) := by
  refine ⟨?_, ?_, ?_⟩
  · simp [controllerFindOne, serviceFindOne, h, find?_idEq_nan]
  · simp [controllerUpdate, serviceUpdate, h, find?_idEq_nan]
  · simp [controllerDelete, serviceDelete, h, find?_idEq_nan]

/-- C9 witness: `GET/PATCH/DELETE /users/abc` on the sample store all
answer NotFound without touching the store. -/
theorem nan_id_yields_not_found_witness :
    controllerFindOne sampleUsers "abc" = .error (.notFound "User Not Found") ∧
    controllerUpdate sampleUsers "abc" ⟨some "X", none, none⟩ =
      (sampleUsers, .error (.notFound "User Not Found")) ∧
    controllerDelete sampleUsers "abc" =
      (sampleUsers, .error (.notFound "User Not Found")) :=
  nan_id_yields_not_found sampleUsers "abc" ⟨some "X", none, none⟩ (by decide)

/-- C10: the GET /users handler forwards any role string to the service
unchanged — the result is always the exact-match filter, never a
BadRequest — so a role outside the enum applied to a store of valid-role
records yields the empty list. -/
theorem unknown_role_filters_to_empty (s : List User) (r : String)
    (h1 : validRole r = false) (h2 : ∀ u ∈ s, validRole u.role = true) :
    controllerFindAll s (some r) = s.filter (fun u => u.role == r) ∧
    controllerFindAll s (some r) = [] := by
  refine ⟨rfl, ?_⟩
  simp only [controllerFindAll, serviceFindAll]
  rw [List.filter_eq_nil_iff]
  intro u hu
  have := h2 u hu
  simp only [beq_iff_eq]
  intro hroleeq
  rw [hroleeq] at this
  rw [this] at h1
  cases h1

/-- C10 witness: filtering the sample store by the unknown role `WIZARD`
returns the empty list, not an error. -/
theorem unknown_role_filters_to_empty_witness :
    controllerFindAll sampleUsers (some "WIZARD") =
      sampleUsers.filter (fun u => u.role == "WIZARD") ∧
    controllerFindAll sampleUsers (some "WIZARD") = [] :=
  unknown_role_filters_to_empty sampleUsers "WIZARD" (by decide)
    (by intro u hu; fin_cases hu <;> rfl)

theorem validateCreate_ok_fields {b : RawCreateBody} {d : CreateUserDto}
    (h : validateCreate b = .ok d) :
    b.name = some d.name ∧ b.email = some d.email ∧ b.role = some d.role := by
  cases b with
  | mk nm em rl =>
    cases hn : nm <;> cases he : em <;> cases hr : rl <;>
      subst hn <;> subst he <;> subst hr <;>
      simp only [validateCreate] at h
    · exact Except.noConfusion h
    · exact Except.noConfusion h
    · exact Except.noConfusion h
    · exact Except.noConfusion h
    · exact Except.noConfusion h
    · exact Except.noConfusion h
    · exact Except.noConfusion h
    · split at h
      · cases h
        exact ⟨rfl, rfl, rfl⟩
      · exact Except.noConfusion h

theorem serviceFindOne_append_fresh (s : List User) (u : User)
    (hfresh : ∀ v ∈ s, v.id ≠ u.id) :
    serviceFindOne (s ++ [u]) (JSNum.num u.id) = .ok u := by
  have hnone : s.find? (fun v => v.id == u.id) = none := by
    rw [List.find?_eq_none]
    intro v hv
    simp only [beq_iff_eq]
    simp [hfresh v hv]
  simp [serviceFindOne, List.find?_append, idEq, hnone, List.find?]

/-- C1: a creation payload accepted by validation is stored with its
supplied name, email and role, and fetching by the id returned from create
— through `GET /users/:id`, whose path parameter converts to that id —
yields that very record. -/
theorem create_then_get_roundtrip (s : List User) (b : RawCreateBody)
    (d : CreateUserDto) (h : validateCreate b = .ok d) :
    b.name = some d.name ∧ b.email = some d.email ∧ b.role = some d.role ∧
    ∃ s' u, controllerCreate s b = (s', .ok u) ∧
      u.name = d.name ∧ u.email = d.email ∧ u.role = d.role ∧
      serviceFindOne s' (JSNum.num u.id) = .ok u ∧
      ∀ idStr, toNumber idStr = JSNum.num u.id →
        controllerFindOne s' idStr = .ok u := by
  obtain ⟨hn, he, hr⟩ := validateCreate_ok_fields h
  have hfresh : ∀ v ∈ s, v.id ≠ maxId s + 1 := by
    intro v hv
    have := mem_le_maxId hv
    omega
  have hfind := serviceFindOne_append_fresh s ⟨maxId s + 1, d.name, d.email, d.role⟩ hfresh
  refine ⟨hn, he, hr, s ++ [⟨maxId s + 1, d.name, d.email, d.role⟩],
    ⟨maxId s + 1, d.name, d.email, d.role⟩, ?_, rfl, rfl, rfl, hfind, ?_⟩
  · simp [controllerCreate, h, serviceCreate]
  · intro idStr hid
    rw [controllerFindOne, hid]
    exact hfind

/-- C1 witness: creating Dan on the sample store and fetching
`GET /users/4` returns the record with Dan's payload fields. -/
theorem create_then_get_roundtrip_witness :
    (⟨some "Dan", some "dan@x.co", some "ADMIN"⟩ : RawCreateBody).name =
        some (⟨"Dan", "dan@x.co", "ADMIN"⟩ : CreateUserDto).name ∧
    (⟨some "Dan", some "dan@x.co", some "ADMIN"⟩ : RawCreateBody).email =
        some (⟨"Dan", "dan@x.co", "ADMIN"⟩ : CreateUserDto).email ∧
    (⟨some "Dan", some "dan@x.co", some "ADMIN"⟩ : RawCreateBody).role =
        some (⟨"Dan", "dan@x.co", "ADMIN"⟩ : CreateUserDto).role ∧
    ∃ s' u,
      controllerCreate sampleUsers ⟨some "Dan", some "dan@x.co", some "ADMIN"⟩ =
        (s', .ok u) ∧
      u.name = "Dan" ∧ u.email = "dan@x.co" ∧ u.role = "ADMIN" ∧
      serviceFindOne s' (JSNum.num u.id) = .ok u ∧
      ∀ idStr, toNumber idStr = JSNum.num u.id →
        controllerFindOne s' idStr = .ok u :=
  create_then_get_roundtrip sampleUsers ⟨some "Dan", some "dan@x.co", some "ADMIN"⟩
    ⟨"Dan", "dan@x.co", "ADMIN"⟩ rfl

/-- C2: update-by-id on a present id merges exactly the supplied fields
into the matching record — the id and every absent field are kept — and
update-by-id on an absent id signals NotFound. -/
theorem update_merges_only_supplied_fields (s : List User) (n : Int)
    (p : UpdateUserDto) :
    ((∃ u ∈ s, u.id = n) → ∃ r,
       serviceUpdate s (JSNum.num n) p = .ok r ∧
       r.1 = s.map (fun u => if u.id = n then applyUpdate u p else u)) ∧
    ((∀ u ∈ s, u.id ≠ n) →
       serviceUpdate s (JSNum.num n) p = .error (.notFound "User Not Found")) ∧
    (∀ u : User, (applyUpdate u p).id = u.id ∧
       (p.name = none → (applyUpdate u p).name = u.name) ∧
       (∀ v, p.name = some v → (applyUpdate u p).name = v) ∧
       (p.email = none → (applyUpdate u p).email = u.email) ∧
       (∀ v, p.email = some v → (applyUpdate u p).email = v) ∧
       (p.role = none → (applyUpdate u p).role = u.role) ∧
       (∀ v, p.role = some v → (applyUpdate u p).role = v)) := by
  refine ⟨?_, ?_, ?_⟩
  · rintro ⟨u, hu, rfl⟩
    have hsome : (s.find? (fun v => idEq v.id (JSNum.num u.id))).isSome := by
      rw [List.find?_isSome]
      exact ⟨u, hu, by simp [idEq]⟩
    obtain ⟨u₀, hu₀⟩ := Option.isSome_iff_exists.mp hsome
    refine ⟨_, by rw [serviceUpdate, hu₀], ?_⟩
    apply List.map_congr_left
    intro v _
    simp [idEq]
  · intro habs
    have hnone : s.find? (fun v => idEq v.id (JSNum.num n)) = none := by
      rw [List.find?_eq_none]
      intro v hv
      simp [idEq]
      exact habs v hv
    rw [serviceUpdate, hnone]
  · intro u
    refine ⟨rfl, ?_, ?_, ?_, ?_, ?_, ?_⟩ <;>
      first
        | (intro hv; simp [applyUpdate, hv])
        | (intro v hv; simp [applyUpdate, hv])

/-- C2 witness: patching user 2 of the sample store with only a name
merges that name and keeps id, email and role; patching the absent id 9
answers NotFound. -/
theorem update_merges_only_supplied_fields_witness :
    (∃ r, serviceUpdate sampleUsers (JSNum.num 2) ⟨some "Bobby", none, none⟩ = .ok r ∧
       r.1 = sampleUsers.map (fun u =>
         if u.id = 2 then applyUpdate u ⟨some "Bobby", none, none⟩ else u)) ∧
    serviceUpdate sampleUsers (JSNum.num 9) ⟨some "Bobby", none, none⟩ =
      .error (.notFound "User Not Found") :=
  ⟨(update_merges_only_supplied_fields sampleUsers 2 ⟨some "Bobby", none, none⟩).1
      (by decide),
   (update_merges_only_supplied_fields sampleUsers 9 ⟨some "Bobby", none, none⟩).2.1
      (by decide)⟩

/-- C3: delete-by-id on a present id succeeds and answers the deleted
record's id, an immediately repeated delete of the same id signals
NotFound, and delete-by-id on an absent id signals NotFound. -/
theorem delete_twice_not_found (s : List User) (n : Int) :
    ((∃ u ∈ s, u.id = n) → ∃ s',
       serviceDelete s (JSNum.num n) = .ok (s', n) ∧
       serviceDelete s' (JSNum.num n) = .error (.notFound "User Not Found")) ∧
    ((∀ u ∈ s, u.id ≠ n) →
       serviceDelete s (JSNum.num n) = .error (.notFound "User Not Found")) := by
  constructor
  · rintro ⟨u, hu, rfl⟩
    have hsome : (s.find? (fun v => idEq v.id (JSNum.num u.id))).isSome := by
      rw [List.find?_isSome]
      exact ⟨u, hu, by simp [idEq]⟩
    obtain ⟨u₀, hu₀⟩ := Option.isSome_iff_exists.mp hsome
    have hid : u₀.id = u.id := by
      have := List.find?_some hu₀
      simpa [idEq] using this
    refine ⟨s.filter (fun v => !idEq v.id (JSNum.num u.id)), ?_, ?_⟩
    · rw [serviceDelete, hu₀]
      simp [hid]
    · have hnone : (s.filter (fun v => !idEq v.id (JSNum.num u.id))).find?
          (fun v => idEq v.id (JSNum.num u.id)) = none := by
        rw [List.find?_eq_none]
        intro v hv
        have := (List.mem_filter.mp hv).2
        simp at this
        simp [this]
      rw [serviceDelete, hnone]
  · intro habs
    have hnone : s.find? (fun v => idEq v.id (JSNum.num n)) = none := by
      rw [List.find?_eq_none]
      intro v hv
      simp [idEq]
      exact habs v hv
    rw [serviceDelete, hnone]

/-- C3 witness: deleting id 2 from the sample store answers 2, deleting it
again answers NotFound, and deleting the absent id 9 answers NotFound. -/
theorem delete_twice_not_found_witness :
    (∃ s', serviceDelete sampleUsers (JSNum.num 2) = .ok (s', 2) ∧
       serviceDelete s' (JSNum.num 2) = .error (.notFound "User Not Found")) ∧
    serviceDelete sampleUsers (JSNum.num 9) =
      .error (.notFound "User Not Found") :=
  ⟨(delete_twice_not_found sampleUsers 2).1 (by decide),
   (delete_twice_not_found sampleUsers 9).2 (by decide)⟩

theorem createErrors_ne_nil {b : RawCreateBody}
    (h : b.name = none ∨ b.email = none ∨ b.role = none ∨
      (∃ e, b.email = some e ∧ isEmailFormat e = false) ∨
      (∃ r, b.role = some r ∧ validRole r = false)) :
    createErrors b ≠ [] := by
  rcases h with h | h | h | ⟨e, he, hbad⟩ | ⟨r, hr, hbad⟩
  · simp [createErrors, h]
  · simp [createErrors, h]
  · simp [createErrors, h]
  · simp [createErrors, he, hbad]
  · simp [createErrors, hr, hbad]

theorem validateCreate_error_of_ne_nil {b : RawCreateBody}
    (h : createErrors b ≠ []) :
    validateCreate b = .error (createErrors b) := by
  unfold validateCreate
  cases hn : b.name <;> cases he : b.email <;> cases hr : b.role <;> simp
  exact h

/-- C6: a creation payload with a missing required field, a malformed
email or a role outside the enum is rejected with BadRequest carrying a
non-empty list of field-level messages, and the store is returned
unchanged — the service create is never reached. -/
theorem invalid_create_rejected (s : List User) (b : RawCreateBody)
    (h : b.name = none ∨ b.email = none ∨ b.role = none ∨
      (∃ e, b.email = some e ∧ isEmailFormat e = false) ∨
      (∃ r, b.role = some r ∧ validRole r = false)) :
    createErrors b ≠ [] ∧
    controllerCreate s b = (s, .error (.badRequest (createErrors b))) := by
  have hne := createErrors_ne_nil h
  refine ⟨hne, ?_⟩
  rw [controllerCreate, validateCreate_error_of_ne_nil hne]

/-- C6 witness: a payload with no name, a malformed email and an unknown
role is rejected with three field messages and the sample store is left
unchanged. -/
theorem invalid_create_rejected_witness :
    createErrors ⟨none, some "danx.co", some "BOSS"⟩ ≠ [] ∧
    controllerCreate sampleUsers ⟨none, some "danx.co", some "BOSS"⟩ =
      (sampleUsers,
       .error (.badRequest (createErrors ⟨none, some "danx.co", some "BOSS"⟩))) :=
  invalid_create_rejected sampleUsers ⟨none, some "danx.co", some "BOSS"⟩
    (Or.inl rfl)

/-- C7: on a store of pairwise-distinct ids, create keeps the ids
pairwise distinct (the fresh id exceeds every stored one), a successful
update leaves the id sequence exactly as it was (so ids never change and
stay distinct), and a successful delete keeps a subsequence of the ids,
still pairwise distinct. -/
theorem crud_preserves_distinct_ids (s : List User) (d : CreateUserDto)
    (x : JSNum) (p : UpdateUserDto) (h : (s.map User.id).Nodup) :
    ((serviceCreate s d).1.map User.id).Nodup ∧
    (∀ s' u', serviceUpdate s x p = .ok (s', u') →
       s'.map User.id = s.map User.id ∧ (s'.map User.id).Nodup) ∧
    (∀ s' i, serviceDelete s x = .ok (s', i) →
       List.Sublist (s'.map User.id) (s.map User.id) ∧
       (s'.map User.id).Nodup) := by
  refine ⟨?_, ?_, ?_⟩
  · have hfresh : maxId s + 1 ∉ s.map User.id := by
      intro hmem
      obtain ⟨v, hv, hvid⟩ := List.mem_map.mp hmem
      have := mem_le_maxId hv
      omega
    have hperm : List.Perm ((serviceCreate s d).1.map User.id)
        ((maxId s + 1) :: s.map User.id) := by
      simp only [serviceCreate, List.map_append]
      exact List.perm_append_singleton _ _
    exact hperm.nodup_iff.mpr (List.nodup_cons.mpr ⟨hfresh, h⟩)
  · intro s' u' hok
    cases hf : s.find? (fun u => idEq u.id x) with
    | none => rw [serviceUpdate, hf] at hok; exact Except.noConfusion hok
    | some u₀ =>
      rw [serviceUpdate, hf] at hok
      cases hok
      have hids : (s.map (fun v => if idEq v.id x then applyUpdate v p else v)).map
          User.id = s.map User.id := by
        rw [List.map_map]
        apply List.map_congr_left
        intro v _
        by_cases hc : idEq v.id x <;> simp [hc, applyUpdate]
      exact ⟨hids, hids ▸ h⟩
  · intro s' i hok
    cases hf : s.find? (fun u => idEq u.id x) with
    | none => rw [serviceDelete, hf] at hok; exact Except.noConfusion hok
    | some u₀ =>
      rw [serviceDelete, hf] at hok
      cases hok
      have hsub : List.Sublist
          ((s.filter (fun v => !idEq v.id x)).map User.id) (s.map User.id) :=
        (List.filter_sublist s).map User.id
      exact ⟨hsub, List.Nodup.sublist hsub h⟩

/-- C7 witness: creating Dan on the sample store keeps the stored ids
pairwise distinct, and patching user 2 leaves the id sequence
untouched. -/
theorem crud_preserves_distinct_ids_witness :
    ((serviceCreate sampleUsers ⟨"Dan", "dan@x.co", "ADMIN"⟩).1.map
      User.id).Nodup ∧
    ∀ s' u', serviceUpdate sampleUsers (JSNum.num 2) ⟨some "Bobby", none, none⟩ =
        .ok (s', u') →
      s'.map User.id = sampleUsers.map User.id ∧ (s'.map User.id).Nodup :=
  ⟨(crud_preserves_distinct_ids sampleUsers ⟨"Dan", "dan@x.co", "ADMIN"⟩
      (JSNum.num 2) ⟨some "Bobby", none, none⟩ (by decide)).1,
   (crud_preserves_distinct_ids sampleUsers ⟨"Dan", "dan@x.co", "ADMIN"⟩
      (JSNum.num 2) ⟨some "Bobby", none, none⟩ (by decide)).2.1⟩

theorem stepWindow_accept_count_le {ttl limit : Nat} (hl : 1 ≤ limit)
    {w : WindowState} {t : Nat}
    (h : (stepWindow ttl limit w t).2 = true) :
    (stepWindow ttl limit w t).1.count ≤ limit := by
  by_cases h1 : t < w.windowStart + ttl
  · by_cases h2 : w.count < limit
    · rw [stepWindow, if_pos h1, if_pos h2]
      exact h2
    · rw [stepWindow, if_pos h1, if_neg h2] at h
      exact Bool.noConfusion h
  · rw [stepWindow, if_neg h1]
    exact hl

/-- C8: in the fixed-window limiter, once a client's short-window count
has reached 3 inside the 1-second window (or the long-window count 100
inside the 60-second window), the next request in that window is rejected
with TooManyRequests and the counters stay put — so every further request
of the same window is also rejected — and an accepted request never drives
either counter beyond its limit. -/
theorem rate_limit_fixed_windows (c : ClientState) (t : Nat) :
    (t < c.short.windowStart + shortTtl → shortLimit ≤ c.short.count →
       rlStep c t = (c, false)) ∧
    (t < c.long.windowStart + longTtl → longLimit ≤ c.long.count →
       rlStep c t = (c, false)) ∧
    ((rlStep c t).2 = false → (rlStep c t).1 = c) ∧
    ((rlStep c t).2 = true →
       (rlStep c t).1.short.count ≤ shortLimit ∧
       (rlStep c t).1.long.count ≤ longLimit) := by
  refine ⟨?_, ?_, ?_, ?_⟩
  · intro hin hcnt
    have hs : stepWindow shortTtl shortLimit c.short t = (c.short, false) := by
      rw [stepWindow, if_pos hin, if_neg (by omega)]
    simp [rlStep, hs]
  · intro hin hcnt
    have hl : stepWindow longTtl longLimit c.long t = (c.long, false) := by
      rw [stepWindow, if_pos hin, if_neg (by omega)]
    simp [rlStep, hl]
  · intro hrej
    by_cases hc : ((stepWindow shortTtl shortLimit c.short t).2 &&
        (stepWindow longTtl longLimit c.long t).2) = true
    · simp [rlStep, hc] at hrej
    · simp [rlStep, hc]
  · intro hacc
    by_cases hc : ((stepWindow shortTtl shortLimit c.short t).2 &&
        (stepWindow longTtl longLimit c.long t).2) = true
    · have h1 := stepWindow_accept_count_le
        (show 1 ≤ shortLimit by norm_num [shortLimit])
        (Bool.and_eq_true_iff.mp hc).1
      have h2 := stepWindow_accept_count_le
        (show 1 ≤ longLimit by norm_num [longLimit])
        (Bool.and_eq_true_iff.mp hc).2
      simp [rlStep, hc]
      exact ⟨h1, h2⟩
    · simp [rlStep, hc] at hacc

/-- C8 witness: a client whose short window holds 3 requests is rejected
at 500 ms with unchanged counters, and a fresh client's first request is
accepted with both counters within their limits. -/
theorem rate_limit_fixed_windows_witness :
    rlStep ⟨⟨0, 3⟩, ⟨0, 5⟩⟩ 500 = (⟨⟨0, 3⟩, ⟨0, 5⟩⟩, false) ∧
    (rlStep ⟨⟨0, 0⟩, ⟨0, 0⟩⟩ 500).1.short.count ≤ shortLimit ∧
    (rlStep ⟨⟨0, 0⟩, ⟨0, 0⟩⟩ 500).1.long.count ≤ longLimit :=
  ⟨(rate_limit_fixed_windows ⟨⟨0, 3⟩, ⟨0, 5⟩⟩ 500).1 (by decide) (by decide),
   (rate_limit_fixed_windows ⟨⟨0, 0⟩, ⟨0, 0⟩⟩ 500).2.2.2 (by decide)⟩

end NestBasics
